import Mathlib

/-
Verification of the Throne_War_RTS HTTP server (src/app/main.py).

The repository code under src/app/main.py builds a FastAPI application:
a fixed list of five static-file mounts, a root redirect, and two JSON
endpoints behind a permissive CORS middleware.  The route table, the
endpoint payloads and the redirect target are embedded directly from the
source.  The behavior of the framework pieces the source merely invokes
(StaticFiles resolution, Mount prefix matching, CORSMiddleware, the
RedirectResponse default status) is not part of the repository, so those
are modelled from the specification (spec.md sections 4.2, 4.3, 4.5, 6, 7).
Requests are modelled as GET requests identified by their URL path,
since the whole HTTP surface of the program is GET-only.
-/

namespace ThroneWar

/-- A URL or filesystem path, as its list of segments. -/
abbrev Path := List String

/-- One entry of the route table: a URL path prefix bound to a directory
on disk, with the `html` flag of `StaticFiles` (serve-index-html) and the
mount name.  Mirrors the arguments of each `app.mount(...)` call in
src/app/main.py lines 24-28. -/
structure MountEntry where
  mountPath : Path
  directory : Path
  html : Bool
  name : String
deriving DecidableEq

/-- The filesystem visible to the server: contents of regular files
(as byte lists) and which paths are directories. -/
structure FileSystem where
  files : Path → Option (List Nat)
  dirs : Path → Bool

/-- A response body: empty, a JSON object (modelled structurally as an
association list of string fields), or the bytes of a served file. -/
inductive Body where
  | empty : Body
  | json : List (String × String) → Body
  | file : List Nat → Body
deriving DecidableEq

/-- An HTTP response: status code, headers, body. -/
structure Response where
  status : Nat
  headers : List (String × String)
  body : Body
deriving DecidableEq

/-- The application title, from `FastAPI(title=...)` in src/app/main.py
line 8. -/
def app_title : String := "Throne Wars RTS API"

/-- The route table built by the five `app.mount` calls of
src/app/main.py lines 24-28, in registration order.  Directories are
relative to the project root; `frontend_path` is the `frontend` directory
beside the server code (lines 20-21).  `html := true` is passed exactly
for the `/game` and `/menu` mounts. -/
def routeTable : List MountEntry :=
  [ ⟨["game"], ["frontend", "game"], true, "game"⟩,
    ⟨["menu", "assets"], ["frontend", "menu", "assets"], false, "menu_assets"⟩,
    ⟨["menu", "css"], ["frontend", "menu", "css"], false, "menu_css"⟩,
    ⟨["menu", "js"], ["frontend", "menu", "js"], false, "menu_js"⟩,
    ⟨["menu"], ["frontend", "menu"], true, "menu"⟩ ]

/-- Modelled from the spec: the "not found" response of the static file
resolver (spec 4.2 "otherwise respond with a not found status", spec 7
"requested static asset not found → HTTP 404").  The framework code that
produces it is not part of the repository. -/
def notFound : Response := { status := 404, headers := [], body := .empty }

/-- Modelled from the spec: normalization of a residual path containing
`..` segments.  A `..` segment removes the previous segment; a `..` that
would escape above the mount root yields `none` (rejected, spec 4.2
"path resolution must reject path traversal").  The framework resolver
performing this is not part of the repository. -/
def normalizeSegs : Path → Path → Option Path
  | [], acc => some acc.reverse
  | s :: rest, acc =>
    if s = ".." then
      match acc with
      | [] => none
      | _ :: acc' => normalizeSegs rest acc'
    else normalizeSegs rest (s :: acc)

/-- Modelled from the spec: the static file resolver of a single mount
(spec 4.2).  Given the mount and the residual path: reject traversal
that escapes the root; serve an existing regular file's exact bytes;
if the residual path is empty or refers to a directory and the mount has
serve-index-html set, serve that directory's `index.html`; otherwise
respond not found.  The framework `StaticFiles` class implementing this
is not part of the repository. -/
def serveStatic (fs : FileSystem) (m : MountEntry) (residual : Path) : Response :=
  match normalizeSegs residual [] with
  | none => notFound
  | some rel =>
    let full := m.directory ++ rel
    match fs.files full with
    | some bs => { status := 200, headers := [], body := .file bs }
    | none =>
      if m.html ∧ (rel = [] ∨ fs.dirs full) then
        match fs.files (full ++ ["index.html"]) with
        | some bs => { status := 200, headers := [], body := .file bs }
        | none => notFound
      else notFound

/-- Strips a prefix of segments from a path, returning the residual
path when the whole prefix matches. -/
def stripSegs : Path → Path → Option Path
  | [], p => some p
  | _ :: _, [] => none
  | s :: ss, t :: ts => if s = t then stripSegs ss ts else none

/-- Modelled from the spec: mount prefix matching.  Entries are tried in
registration order, so more specific prefixes registered first win
(spec 3 "more specific prefixes must be registered and matched before
less specific ones").  The framework router is not part of the
repository. -/
def matchMount : List MountEntry → Path → Option (MountEntry × Path)
  | [], _ => none
  | m :: rest, p =>
    match stripSegs m.mountPath p with
    | some residual => some (m, residual)
    | none => matchMount rest p

/-- Modelled from the spec: a redirect response (spec 4.3, spec 6
"GET / | 302 redirect to /menu/menu.html").  The `RedirectResponse`
class and its default status code are not part of the repository; the
spec gives the status as 302. -/
def redirectResponse (url : String) : Response :=
  { status := 302, headers := [("Location", url)], body := .empty }

/-- The `root` endpoint of src/app/main.py lines 33-36: redirect to the
menu page. -/
def root : Response := redirectResponse "/menu/menu.html"

/-- The `api_root` endpoint of src/app/main.py lines 38-40. -/
def api_root : Response :=
  { status := 200, headers := [],
    body := .json [("message", "Welcome to Throne Wars RTS API")] }

/-- The `health_check` endpoint of src/app/main.py lines 42-44. -/
def health_check : Response :=
  { status := 200, headers := [], body := .json [("status", "healthy")] }

/-- The routing of a GET request: the five mounts are registered before
the three path operations, so they are matched first; the paths `/`,
`/api` and `/api/health` do not overlap any mount prefix. -/
def handleGet (fs : FileSystem) (p : Path) : Response :=
  match matchMount routeTable p with
  | some (m, residual) => serveStatic fs m residual
  | none =>
    if p = [] then root
    else if p = ["api"] then api_root
    else if p = ["api", "health"] then health_check
    else notFound

/-- Modelled from the spec: the CORS middleware adds the permissive
header to every response (spec 4.5 "cross-cutting concern applied to
every response", spec 6 "all responses carry Access-Control-Allow-Origin:
*").  The `CORSMiddleware` class configured in src/app/main.py lines
11-17 is not part of the repository. -/
def addCors (r : Response) : Response :=
  { r with headers := ("Access-Control-Allow-Origin", "*") :: r.headers }

/-- The full application on a GET request: routing then the CORS
middleware. -/
def appGet (fs : FileSystem) (p : Path) : Response :=
  addCors (handleGet fs p)

/-- The empty filesystem, for concrete evaluations. -/
def fsEmpty : FileSystem := ⟨fun _ => none, fun _ => false⟩

theorem normalizeSegs_no_dotdot (p : Path) :
    ∀ acc : Path, ".." ∉ p → normalizeSegs p acc = some (acc.reverse ++ p) := by
  induction p with
  | nil => intro acc _; simp [normalizeSegs]
  | cons s rest ih =>
    intro acc h
    have hs : s ≠ ".." := fun hh => h (by simp [hh])
    have hr : ".." ∉ rest := fun hh => h (List.mem_cons_of_mem _ hh)
    simp [normalizeSegs, hs, ih (s :: acc) hr]

theorem serveStatic_file (fs : FileSystem) (m : MountEntry) (rel : Path) (bs : List Nat)
    (hdd : ".." ∉ rel) (hf : fs.files (m.directory ++ rel) = some bs) :
    serveStatic fs m rel = { status := 200, headers := [], body := .file bs } := by
  have hn : normalizeSegs rel [] = some rel := by
    simpa using normalizeSegs_no_dotdot rel [] hdd
  simp [serveStatic, hn, hf]

theorem handleGet_mount (fs : FileSystem) (p : Path) (m : MountEntry) (rel : Path)
    (h : matchMount routeTable p = some (m, rel)) :
    handleGet fs p = serveStatic fs m rel := by
  simp [handleGet, h]

/-- Claim C2: every GET request to the root path returns a redirect with
status code 302 whose Location target is /menu/menu.html. -/
theorem C2_root_redirect (fs : FileSystem) :
    (appGet fs []).status = 302 ∧
    ("Location", "/menu/menu.html") ∈ (appGet fs []).headers := by
  exact ⟨rfl, by simp [appGet, handleGet, matchMount, stripSegs, routeTable,
    addCors, root, redirectResponse]⟩

/-- Claim C3: every response produced by the server, for every request,
includes the header Access-Control-Allow-Origin with value *. -/
theorem C3_cors_every_response (fs : FileSystem) (p : Path) :
    ("Access-Control-Allow-Origin", "*") ∈ (appGet fs p).headers := by
  simp [appGet, addCors]

/-- Claim C4: every GET request to /api/health returns status 200 with
body exactly the JSON object with single field status = healthy,
independent of any other system state (the response is the same constant
for every filesystem). -/
theorem C4_health_constant (fs : FileSystem) :
    appGet fs ["api", "health"] =
      { status := 200,
        headers := [("Access-Control-Allow-Origin", "*")],
        body := .json [("status", "healthy")] } := rfl

/-- Claim C5: for every path x, a GET request to /menu/assets/x is
resolved by the /menu/assets mount (directory frontend/menu/assets), not
by the broader /menu mount, because the more specific prefix is
registered and matched first. -/
theorem C5_assets_specificity (fs : FileSystem) (x : Path) :
    matchMount routeTable (["menu", "assets"] ++ x) =
      some (⟨["menu", "assets"], ["frontend", "menu", "assets"], false, "menu_assets"⟩, x) ∧
    appGet fs (["menu", "assets"] ++ x) =
      addCors (serveStatic fs
        ⟨["menu", "assets"], ["frontend", "menu", "assets"], false, "menu_assets"⟩ x) :=
  ⟨rfl, rfl⟩

/-- Claim C7 counterexample: the body of a GET /api response is not the
JSON object message = "Throne Wars RTS API" (the service name followed
by " API"); the actual message carries a "Welcome to " greeting. -/
theorem C7_counterexample :
    (appGet fsEmpty ["api"]).body ≠ Body.json [("message", "Throne Wars RTS" ++ " API")] := by
  decide

/-- Claim C7 as amended: every GET request to /api returns status 200
with JSON body whose message field is "Welcome to " followed by the
application title "Throne Wars RTS API", i.e. the message is
"Welcome to Throne Wars RTS API". -/
theorem C7_api_message (fs : FileSystem) :
    appGet fs ["api"] =
      { status := 200,
        headers := [("Access-Control-Allow-Origin", "*")],
        body := .json [("message", "Welcome to " ++ app_title)] } := rfl

/-- Claim C1: for every GET request matched to a mount whose residual
path would resolve outside the mount's root directory (normalization
rejects it), the server returns status 404 (non-2xx) and the body is
never the bytes of any file. -/
theorem C1_traversal_rejected (fs : FileSystem) (p : Path) (m : MountEntry) (rel : Path)
    (hmatch : matchMount routeTable p = some (m, rel))
    (hesc : normalizeSegs rel [] = none) :
    (appGet fs p).status = 404 ∧ ∀ bs : List Nat, (appGet fs p).body ≠ Body.file bs := by
  have hs : serveStatic fs m rel = notFound := by
    simp [serveStatic, hesc]
  have hh : handleGet fs p = notFound := by
    rw [handleGet_mount fs p m rel hmatch, hs]
  constructor
  · simp [appGet, hh, addCors, notFound]
  · intro bs
    simp [appGet, hh, addCors, notFound]

theorem C1_traversal_rejected_witness :
    matchMount routeTable ["menu", "..", "app", "main.py"] =
      some (⟨["menu"], ["frontend", "menu"], true, "menu"⟩, ["..", "app", "main.py"]) ∧
    normalizeSegs ["..", "app", "main.py"] [] = none ∧
    (appGet fsEmpty ["menu", "..", "app", "main.py"]).status = 404 ∧
    ∀ bs : List Nat, (appGet fsEmpty ["menu", "..", "app", "main.py"]).body ≠ Body.file bs :=
  ⟨by decide, by decide,
    C1_traversal_rejected fsEmpty ["menu", "..", "app", "main.py"]
      ⟨["menu"], ["frontend", "menu"], true, "menu"⟩ ["..", "app", "main.py"]
      (by decide) (by decide)⟩

theorem matchMount_mountPath (m : MountEntry) (rel : Path) (hm : m ∈ routeTable) :
    ∃ m' rel', matchMount routeTable (m.mountPath ++ rel) = some (m', rel') ∧
      m'.directory ++ rel' = m.directory ++ rel ∧ (".." ∉ rel → ".." ∉ rel') := by
  simp only [routeTable, List.mem_cons, List.not_mem_nil, or_false] at hm
  rcases hm with rfl | rfl | rfl | rfl | rfl
  · exact ⟨_, rel, rfl, rfl, fun h => h⟩
  · exact ⟨_, rel, rfl, rfl, fun h => h⟩
  · exact ⟨_, rel, rfl, rfl, fun h => h⟩
  · exact ⟨_, rel, rfl, rfl, fun h => h⟩
  · match rel with
    | [] => exact ⟨_, [], rfl, rfl, fun h => h⟩
    | s :: rest =>
      by_cases ha : s = "assets"
      · subst ha
        refine ⟨_, rest, rfl, by simp, fun h hh => h (List.mem_cons_of_mem _ hh)⟩
      · by_cases hc : s = "css"
        · subst hc
          refine ⟨_, rest, rfl, by simp, fun h hh => h (List.mem_cons_of_mem _ hh)⟩
        · by_cases hj : s = "js"
          · subst hj
            refine ⟨_, rest, rfl, by simp, fun h hh => h (List.mem_cons_of_mem _ hh)⟩
          · refine ⟨_, s :: rest, ?_, rfl, fun h => h⟩
            simp [matchMount, routeTable, stripSegs, Ne.symm ha, Ne.symm hc, Ne.symm hj]

/-- Claim C6: for every existing regular file under a mounted directory,
a GET request to the mount's URL prefix followed by the file's path
relative to the mount directory returns status 200 with the file's exact
bytes. -/
theorem C6_existing_file (fs : FileSystem) (m : MountEntry) (rel : Path) (bs : List Nat)
    (hm : m ∈ routeTable) (hdd : ".." ∉ rel)
    (hf : fs.files (m.directory ++ rel) = some bs) :
    appGet fs (m.mountPath ++ rel) =
      { status := 200,
        headers := [("Access-Control-Allow-Origin", "*")],
        body := .file bs } := by
  obtain ⟨m', rel', hmm, hdir, hclean⟩ := matchMount_mountPath m rel hm
  have hf' : fs.files (m'.directory ++ rel') = some bs := by rw [hdir]; exact hf
  rw [appGet, handleGet_mount fs _ m' rel' hmm,
    serveStatic_file fs m' rel' bs (hclean hdd) hf']
  rfl

/-- A filesystem holding one game script, for concrete evaluations. -/
def fsGame : FileSystem :=
  ⟨fun q => if q = ["frontend", "game", "main.js"] then some [104, 105] else none,
   fun _ => false⟩

theorem C6_existing_file_witness :
    (⟨["game"], ["frontend", "game"], true, "game"⟩ : MountEntry) ∈ routeTable ∧
    ".." ∉ (["main.js"] : Path) ∧
    fsGame.files (["frontend", "game"] ++ ["main.js"]) = some [104, 105] ∧
    appGet fsGame (["game"] ++ ["main.js"]) =
      { status := 200,
        headers := [("Access-Control-Allow-Origin", "*")],
        body := .file [104, 105] } :=
  ⟨by decide, by decide, by decide,
    C6_existing_file fsGame ⟨["game"], ["frontend", "game"], true, "game"⟩
      ["main.js"] [104, 105] (by decide) (by decide) (by decide)⟩

/-- Claim C8: the mounts with index-serving enabled are exactly /game
and /menu; on a request whose residual path is empty or refers to a
directory (and names no regular file), a mount with the html option
serves that directory's index.html, and a mount without it does not
serve an index file and responds not found. -/
theorem C8_index_serving (fs : FileSystem) (p : Path) (m : MountEntry) (rel : Path)
    (bs : List Nat)
    (hmatch : matchMount routeTable p = some (m, rel))
    (hdd : ".." ∉ rel)
    (hnf : fs.files (m.directory ++ rel) = none)
    (hdir : rel = [] ∨ fs.dirs (m.directory ++ rel) = true) :
    (routeTable.map fun e => (e.name, e.html)) =
      [("game", true), ("menu_assets", false), ("menu_css", false),
       ("menu_js", false), ("menu", true)] ∧
    (m.html = true → fs.files (m.directory ++ rel ++ ["index.html"]) = some bs →
      appGet fs p =
        { status := 200, headers := [("Access-Control-Allow-Origin", "*")],
          body := .file bs }) ∧
    (m.html = false → appGet fs p = addCors notFound) := by
  have hn : normalizeSegs rel [] = some rel := by
    simpa using normalizeSegs_no_dotdot rel [] hdd
  refine ⟨by decide, ?_, ?_⟩
  · intro hhtml hidx
    rw [List.append_assoc] at hidx
    have hs : serveStatic fs m rel = { status := 200, headers := [], body := .file bs } := by
      simp [serveStatic, hn, hnf, hhtml, hdir, hidx]
    rw [appGet, handleGet_mount fs p m rel hmatch, hs]
    rfl
  · intro hhtml
    have hs : serveStatic fs m rel = notFound := by
      simp [serveStatic, hn, hnf, hhtml]
    rw [appGet, handleGet_mount fs p m rel hmatch, hs]

/-- A filesystem holding one game subdirectory with an index file, for
concrete evaluations. -/
def fsDirGame : FileSystem :=
  ⟨fun q => if q = ["frontend", "game", "sub", "index.html"] then some [60] else none,
   fun q => decide (q = ["frontend", "game", "sub"])⟩

theorem C8_index_serving_witness :
    matchMount routeTable ["game", "sub"] =
      some (⟨["game"], ["frontend", "game"], true, "game"⟩, ["sub"]) ∧
    ".." ∉ (["sub"] : Path) ∧
    fsDirGame.files (["frontend", "game"] ++ ["sub"]) = none ∧
    fsDirGame.dirs (["frontend", "game"] ++ ["sub"]) = true ∧
    ((routeTable.map fun e => (e.name, e.html)) =
      [("game", true), ("menu_assets", false), ("menu_css", false),
       ("menu_js", false), ("menu", true)] ∧
    (true = true → fsDirGame.files (["frontend", "game"] ++ ["sub"] ++ ["index.html"]) = some [60] →
      appGet fsDirGame ["game", "sub"] =
        { status := 200, headers := [("Access-Control-Allow-Origin", "*")],
          body := .file [60] }) ∧
    (true = false → appGet fsDirGame ["game", "sub"] = addCors notFound)) :=
  ⟨by decide, by decide, by decide, by decide,
    C8_index_serving fsDirGame ["game", "sub"]
      ⟨["game"], ["frontend", "game"], true, "game"⟩ ["sub"] [60]
      (by decide) (by decide) (by decide) (Or.inr (by decide))⟩

/-- Claim C9: a GET request matched to a mount whose residual path names
no existing regular file, and for which no index file is served (there
is no index.html at that location), receives HTTP status 404. -/
theorem C9_missing_404 (fs : FileSystem) (p : Path) (m : MountEntry) (rel : Path)
    (hmatch : matchMount routeTable p = some (m, rel))
    (hdd : ".." ∉ rel)
    (hnf : fs.files (m.directory ++ rel) = none)
    (hni : fs.files (m.directory ++ rel ++ ["index.html"]) = none) :
    (appGet fs p).status = 404 := by
  have hn : normalizeSegs rel [] = some rel := by
    simpa using normalizeSegs_no_dotdot rel [] hdd
  rw [List.append_assoc] at hni
  have hs : serveStatic fs m rel = notFound := by
    simp [serveStatic, hn, hnf, hni]
  rw [appGet, handleGet_mount fs p m rel hmatch, hs]
  rfl

theorem C9_missing_404_witness :
    matchMount routeTable ["game", "missing.txt"] =
      some (⟨["game"], ["frontend", "game"], true, "game"⟩, ["missing.txt"]) ∧
    ".." ∉ (["missing.txt"] : Path) ∧
    fsEmpty.files (["frontend", "game"] ++ ["missing.txt"]) = none ∧
    fsEmpty.files (["frontend", "game"] ++ ["missing.txt"] ++ ["index.html"]) = none ∧
    (appGet fsEmpty ["game", "missing.txt"]).status = 404 :=
  ⟨by decide, by decide, by decide, by decide,
    C9_missing_404 fsEmpty ["game", "missing.txt"]
      ⟨["game"], ["frontend", "game"], true, "game"⟩ ["missing.txt"]
      (by decide) (by decide) (by decide) (by decide)⟩

end ThroneWar
